import Mathlib

/-!
Verification of the teamcity-exporter metrics-collection subsystem.

The Go sources (metrics.go, projects.go, agents.go, main) are shallowly
embedded below. Machine integers are modelled as `Nat`/`Int` (all gauge
values the program emits are exact integers: counts, enum ordinals, Unix
seconds, 0/1 booleans, build ids — so `Int` is an exact model of the
`float64` conversions). Fallible code returns `Except`/`Option`. HTTP
transport is modelled as the delivered response (or a transport error).
-/

namespace TCX

instance instDecEqExcept {ε α : Type} [DecidableEq ε] [DecidableEq α] :
    DecidableEq (Except ε α) := fun x y =>
  match x, y with
  | .ok a, .ok b =>
    if h : a = b then .isTrue (by rw [h]) else .isFalse (by simp [h])
  | .error a, .error b =>
    if h : a = b then .isTrue (by rw [h]) else .isFalse (by simp [h])
  | .ok _, .error _ => .isFalse (by simp)
  | .error _, .ok _ => .isFalse (by simp)

/-! ## Digit helpers (model of Go `time` package digit handling)

Go's `time.Parse` recognises bytes `'0'..'9'` and `time.Format` prints
zero-padded decimal fields. `digitChar`/`digitVal?` model one decimal
digit each way. -/

/-- The decimal digit character for `n` (`n ≥ 9` prints `'9'`, matching the
fact that the formatter is only applied to values below 10 per digit). -/
def digitChar (n : Nat) : Char :=
  if n = 0 then '0' else if n = 1 then '1' else if n = 2 then '2' else if n = 3 then '3'
  else if n = 4 then '4' else if n = 5 then '5' else if n = 6 then '6' else if n = 7 then '7'
  else if n = 8 then '8' else '9'

/-- The value of a decimal digit character, `none` on any other character
(Go `isDigit`). -/
def digitVal? (c : Char) : Option Nat :=
  if c = '0' then some 0 else if c = '1' then some 1 else if c = '2' then some 2
  else if c = '3' then some 3 else if c = '4' then some 4 else if c = '5' then some 5
  else if c = '6' then some 6 else if c = '7' then some 7 else if c = '8' then some 8
  else if c = '9' then some 9 else none

/-- Two-digit zero-padded decimal field (Go layout elements `01`, `02`, `15`, `04`, `05`). -/
def pad2 (n : Nat) : String := String.mk [digitChar (n / 10), digitChar (n % 10)]

/-- Four-digit zero-padded decimal field (Go layout element `2006`). -/
def pad4 (n : Nat) : String :=
  String.mk [digitChar (n / 1000), digitChar (n / 100 % 10), digitChar (n / 10 % 10),
    digitChar (n % 10)]

theorem digitVal?_digitChar (k : Nat) (h : k < 10) : digitVal? (digitChar k) = some k := by
  interval_cases k <;> decide

theorem digitChar_ne_quote (k : Nat) : digitChar k ≠ '"' := by
  unfold digitChar
  split_ifs <;> decide

/-! ## Calendar arithmetic (model of Go `time` internals) -/

/-- Leap-year rule used by Go's `daysIn`. -/
def isLeap (y : Nat) : Bool := y % 4 = 0 && (y % 100 ≠ 0 || y % 400 = 0)

/-- Number of days in month `m` of year `y` (Go `daysIn`). -/
def daysIn (m y : Nat) : Nat :=
  if m = 2 then (if isLeap y then 29 else 28)
  else if m = 4 || m = 6 || m = 9 || m = 11 then 30
  else 31

/-- Days from the Unix epoch to civil date `y-m-d` (proleptic Gregorian,
`y ≥ 0`); extensionally the computation Go's `time` package performs when
converting calendar fields to an absolute time. -/
def daysFromCivil (y m d : Nat) : Int :=
  let ys : Nat := if m ≤ 2 then y + 399 else y + 400
  let era := ys / 400
  let yoe := ys % 400
  let mp := if m ≤ 2 then m + 9 else m - 3
  let doy := (153 * mp + 2) / 5 + d - 1
  let doe := yoe * 365 + yoe / 4 - yoe / 100 + doy
  (era * 146097 + doe : Int) - 719468 - 146097

/-! ## The TeamCityTime codec (metrics.go lines 77-86)

`TeamCityTime.UnmarshalJSON` trims double quotes from the raw JSON bytes
and calls `time.Parse("20060102T150405-0700", text)`. A parsed time is a
set of calendar fields together with a fixed zone offset in seconds; the
instant it denotes is `toUnix` below. -/

structure DateTime where
  year : Nat
  month : Nat
  day : Nat
  hour : Nat
  minute : Nat
  second : Nat
  /-- Zone offset east of UTC, in seconds (Go `FixedZone`). -/
  offset : Int
deriving DecidableEq, Repr

/-- The zero `time.Time`: January 1, year 1, 00:00:00 UTC. -/
def zeroTime : DateTime := ⟨1, 1, 1, 0, 0, 0, 0⟩

/-- The instant a parsed time denotes, as Unix seconds (Go `Time.Unix`). -/
def DateTime.toUnix (d : DateTime) : Int :=
  daysFromCivil d.year d.month d.day * 86400
    + d.hour * 3600 + d.minute * 60 + d.second - d.offset

/-- Fields representable in the layout `20060102T150405-0700` at
whole-second precision: a real calendar date with a four-digit year and a
whole-minute zone offset of at most ±23:59. -/
def DateTime.valid (d : DateTime) : Bool :=
  decide (d.year ≤ 9999) && decide (1 ≤ d.month) && decide (d.month ≤ 12) &&
  decide (1 ≤ d.day) && decide (d.day ≤ daysIn d.month d.year) &&
  decide (d.hour ≤ 23) && decide (d.minute ≤ 59) && decide (d.second ≤ 59) &&
  decide (d.offset % 60 = 0) && decide (d.offset.natAbs ≤ 86340)

/-- Numeric zone element of Go `Format` for layout `-0700`: sign, then the
absolute offset in minutes printed as two two-digit fields. -/
def zoneStr (off : Int) : String :=
  let m := off.natAbs / 60
  (if off ≤ -60 then "-" else "+") ++ pad2 (m / 60) ++ pad2 (m % 60)

/-- Go `Format("20060102T150405-0700")` on a time with the given fields. -/
def tcFormat (d : DateTime) : String :=
  pad4 d.year ++ pad2 d.month ++ pad2 d.day ++ "T" ++ pad2 d.hour ++ pad2 d.minute ++
    pad2 d.second ++ zoneStr d.offset

/-- Go `getnum`: one two-digit (or, when not `fixed`, one-digit) decimal number. -/
def getnum2 (fixed : Bool) : List Char → Option (Nat × List Char)
  | [] => none
  | c1 :: rest =>
    match digitVal? c1 with
    | none => none
    | some d1 =>
      match rest with
      | c2 :: rest2 =>
        match digitVal? c2 with
        | some d2 => some (d1 * 10 + d2, rest2)
        | none => if fixed then none else some (d1, rest)
      | [] => if fixed then none else some (d1, [])

/-- Go `stdLongYear`: exactly four decimal digits. -/
def parse4 : List Char → Option (Nat × List Char)
  | c1 :: c2 :: c3 :: c4 :: rest =>
    match digitVal? c1, digitVal? c2, digitVal? c3, digitVal? c4 with
    | some d1, some d2, some d3, some d4 => some (d1 * 1000 + d2 * 100 + d3 * 10 + d4, rest)
    | _, _, _, _ => none
  | _ => none

/-- Go `stdNumTZ` for layout `-0700`: a sign then four digits, producing a
zone offset in seconds; Go performs no range check on the zone fields. -/
def parseZone : List Char → Option (Int × List Char)
  | s :: c1 :: c2 :: c3 :: c4 :: rest =>
    match digitVal? c1, digitVal? c2, digitVal? c3, digitVal? c4 with
    | some h1, some h2, some m1, some m2 =>
      let off : Int := (((h1 * 10 + h2) * 60 + (m1 * 10 + m2)) * 60 : Nat)
      if s = '+' then some (off, rest)
      else if s = '-' then some (-off, rest)
      else none
    | _, _, _, _ => none
  | _ => none

/-- Go `time.Parse("20060102T150405-0700", ·)`: the layout elements are
consumed left to right, the hour/minute/second ranges are checked as they
are read, trailing input is rejected, and the month and day ranges are
checked after the walk (in that order), exactly as Go's parser does.
(The special acceptance of an unsolicited fractional second after the
seconds field is not modelled; no input considered here contains one.) -/
def tcParseChars (cs : List Char) : Except String DateTime :=
  match parse4 cs with
  | none => .error "cannot parse year"
  | some (year, r1) =>
    match getnum2 true r1 with
    | none => .error "cannot parse month"
    | some (month, r2) =>
      match getnum2 true r2 with
      | none => .error "cannot parse day"
      | some (day, r3) =>
        match r3 with
        | 'T' :: r4 =>
          match getnum2 false r4 with
          | none => .error "cannot parse hour"
          | some (hour, r5) =>
            if 24 ≤ hour then .error "hour out of range"
            else
              match getnum2 true r5 with
              | none => .error "cannot parse minute"
              | some (minute, r6) =>
                if 60 ≤ minute then .error "minute out of range"
                else
                  match getnum2 true r6 with
                  | none => .error "cannot parse second"
                  | some (second, r7) =>
                    if 60 ≤ second then .error "second out of range"
                    else
                      match parseZone r7 with
                      | none => .error "cannot parse zone"
                      | some (offset, r8) =>
                        match r8 with
                        | [] =>
                          if month < 1 ∨ 12 < month then .error "month out of range"
                          else if day < 1 ∨ daysIn month year < day then
                            .error "day out of range"
                          else .ok ⟨year, month, day, hour, minute, second, offset⟩
                        | _ => .error "extra text"
        | _ => .error "bad value for field"

/-- `time.Parse` with the upstream layout, on a `String`. -/
def tcParse (s : String) : Except String DateTime := tcParseChars s.data

/-- Go `strings.Trim(s, "\x22")`: remove all leading and trailing double
quotes. -/
def trimQuotes (s : String) : String :=
  String.mk (((s.data.dropWhile (· = '"')).reverse.dropWhile (· = '"')).reverse)

/-- `TeamCityTime.UnmarshalJSON` (metrics.go lines 81-86): trim quotes and
parse in the upstream layout. On failure the error is returned to the
caller (the field itself is left at the zero time, but Go's
`encoding/json` aborts on an `UnmarshalJSON` error, see `decodeBuilds`). -/
def TeamCityTime.UnmarshalJSON (b : String) : Except String DateTime :=
  tcParse (trimQuotes b)

/-! ## Enum mappings (metrics.go lines 233-272) -/

inductive BuildState where
  | unknown
  | queued
  | finished
  | running
  | deleted
deriving DecidableEq, Repr

/-- The `iota` ordinal of a `BuildState` constant. -/
def BuildState.ordinal : BuildState → Nat
  | .unknown => 0
  | .queued => 1
  | .finished => 2
  | .running => 3
  | .deleted => 4

inductive BuildStatus where
  | unknown
  | success
  | failure
deriving DecidableEq, Repr

/-- The `iota` ordinal of a `BuildStatus` constant. -/
def BuildStatus.ordinal : BuildStatus → Nat
  | .unknown => 0
  | .success => 1
  | .failure => 2

/-- `ParseBuildState` (metrics.go lines 250-262): a `switch` on the raw
string with default `BuildStateUnknown`. -/
def ParseBuildState (s : String) : BuildState :=
  if s = "queued" then .queued
  else if s = "finished" then .finished
  else if s = "running" then .running
  else if s = "deleted" then .deleted
  else .unknown

/-- `ParseBuildStatus` (metrics.go lines 264-272): a `switch` on the raw
string with default `BuildStatusUnknown`. -/
def ParseBuildStatus (s : String) : BuildStatus :=
  if s = "SUCCESS" then .success
  else if s = "FAILURE" then .failure
  else .unknown

/-! ## Metric samples

A Prometheus gauge sample: the bound descriptor's metric name, the value,
and the label values in descriptor order. All values emitted by this
program are exact integers, so the `float64` is modelled by `Int`. -/

structure MetricSample where
  desc : String
  value : Int
  labels : List String
deriving DecidableEq, Repr

/-! ## Build data model and JSON decoding (metrics.go lines 274-289)

`Build.StartDate`/`FinishDate` are `TeamCityTime`, whose `UnmarshalJSON`
can fail. Go's `encoding/json` aborts the surrounding `Unmarshal` when a
nested `UnmarshalJSON` method returns an error: decoding of the build list
stops at the first malformed timestamp and `json.Unmarshal` returns that
error. `RawBuild` is a syntactically well-formed JSON build object (field
values still raw); an absent timestamp field leaves the zero time. -/

structure Build where
  id : Nat
  buildTypeID : String
  status : String
  state : String
  startDate : DateTime
  finishDate : DateTime
deriving DecidableEq, Repr

structure RawBuild where
  id : Nat
  buildTypeID : String
  status : String
  state : String
  startDate : Option String
  finishDate : Option String
deriving DecidableEq, Repr

/-- Decode one build object: the timestamp fields go through
`TeamCityTime.UnmarshalJSON`; the first error aborts. -/
def decodeBuild (rb : RawBuild) : Except String Build :=
  match (match rb.startDate with
         | none => .ok zeroTime
         | some s => TeamCityTime.UnmarshalJSON s : Except String DateTime) with
  | .error e => .error e
  | .ok sd =>
    match (match rb.finishDate with
           | none => .ok zeroTime
           | some s => TeamCityTime.UnmarshalJSON s : Except String DateTime) with
    | .error e => .error e
    | .ok fd => .ok ⟨rb.id, rb.buildTypeID, rb.status, rb.state, sd, fd⟩

/-- Decode the `build` array element-wise, aborting at the first failing
element, as `encoding/json` does. -/
def decodeBuilds : List RawBuild → Except String (List Build)
  | [] => .ok []
  | rb :: rest =>
    match decodeBuild rb with
    | .error e => .error e
    | .ok b =>
      match decodeBuilds rest with
      | .error e => .error e
      | .ok bs => .ok (b :: bs)

structure BuildResponse where
  count : Nat
  nextHRef : String
  builds : List Build
deriving DecidableEq, Repr

/-- A syntactically well-formed build-list response body before the
timestamp fields are decoded. An absent `nextHref` is the empty string
(Go zero value with `omitempty`). -/
structure RawBuildResponse where
  count : Nat
  nextHRef : String
  builds : List RawBuild
deriving DecidableEq, Repr

/-- `json.Unmarshal(body, &builds)` for a `BuildResponse`. -/
def unmarshalBuildResponse (r : RawBuildResponse) : Except String BuildResponse :=
  match decodeBuilds r.builds with
  | .error e => .error e
  | .ok bs => .ok ⟨r.count, r.nextHRef, bs⟩

/-! ## The build collector (metrics.go lines 151-231) -/

/-- The delivered HTTP response for the build-list request. -/
structure FetchResult where
  statusCode : Nat
  body : RawBuildResponse
deriving DecidableEq, Repr

/-- What one call of `collectProjectBuildMetrics` does: the gauges sent on
the channel, plus how the call ended. `err` carries the gauges emitted
before the error return; `fatal` carries the gauges emitted before
`logger.Fatal` terminates the process. -/
inductive CollectOutcome where
  | ok (metrics : List MetricSample)
  | err (metrics : List MetricSample) (msg : String)
  | fatal (metrics : List MetricSample)
deriving DecidableEq, Repr

def CollectOutcome.emitted : CollectOutcome → List MetricSample
  | .ok ms => ms
  | .err ms _ => ms
  | .fatal ms => ms

def CollectOutcome.isOk : CollectOutcome → Bool
  | .ok _ => true
  | _ => false

/-- The four gauges emitted for one build, in source order: start time,
finish time, status, state (metrics.go lines 189-223), all labeled by
project id, build-type id, and decimal build id. -/
def buildMetrics (identifier : String) (b : Build) : List MetricSample :=
  let labels := [identifier, b.buildTypeID, toString b.id]
  [⟨"teamcity_build_start_time", b.startDate.toUnix, labels⟩,
   ⟨"teamcity_build_finish_time", b.finishDate.toUnix, labels⟩,
   ⟨"teamcity_build_status", ((ParseBuildStatus b.status).ordinal : Int), labels⟩,
   ⟨"teamcity_build_state", ((ParseBuildState b.state).ordinal : Int), labels⟩]

/-- `collectProjectBuildMetrics` (metrics.go lines 151-231). The input is
the transport result of the authenticated GET: a transport error is
returned as-is; HTTP 404 returns `nil` having emitted nothing; a decode
error is returned having emitted nothing; otherwise every build's four
gauges are emitted first and only then is a non-empty `nextHref` treated
as fatal. -/
def collectProjectBuildMetrics (identifier : String) (transport : Except String FetchResult) :
    CollectOutcome :=
  match transport with
  | .error e => .err [] e
  | .ok response =>
    if response.statusCode = 404 then .ok []
    else
      match unmarshalBuildResponse response.body with
      | .error e => .err [] e
      | .ok builds =>
        let ms := builds.builds.flatMap (buildMetrics identifier)
        if builds.nextHRef ≠ "" then .fatal ms else .ok ms

/-! ## The registered collector's descriptor set (metrics.go lines 18-88)

`NewTeamCityCollector` constructs six descriptors; `main` registers this
collector. Its `Describe` method (metrics.go line 88) has an empty body:
it sends nothing on the descriptor channel. -/

/-- The metric names of the descriptors held by `TeamCityCollector`. -/
def teamCityCollectorDescriptors : List String :=
  ["teamcity_projects", "teamcity_project_build_types", "teamcity_build_start_time",
   "teamcity_build_finish_time", "teamcity_build_state", "teamcity_build_status"]

/-- The descriptors `TeamCityCollector.Describe` sends on its channel: the
method body is empty, so none. -/
def teamCityCollectorDescribe : List String := []

/-! ## The project-tree collector (metrics.go lines 98-149)

The project hierarchy reachable from the root is modelled as a finite tree
(the design assumes the upstream hierarchy is acyclic). Each node carries
what the upstream server answers for it: whether `Projects.GetByID` fails,
the declared `ChildProjects.Count` (which sizes the `WaitGroup`), the
`BuildTypes.Count`, and the transport result of its build-list request.
The `ChildProjects.Items` list is the list of child nodes. -/

inductive ProjectTree where
  | node (id : String) (declaredChildCount : Nat) (buildTypesCount : Nat)
      (fetchErr : Bool) (buildFetch : Except String FetchResult)
      (children : List ProjectTree)
deriving Repr

/-- How a call of `collectProjectMetrics` ends: `completed` means the
function returned (any error having been logged by the caller), with the
gauges its subtree emitted; `fatal` means `logger.Fatal` killed the
process somewhere below; `blocked` means some `WaitGroup` join can never
be satisfied (`wg.Wait` deadlocks when `Count` exceeds the number of
goroutines, and a surplus `wg.Done` panics when it falls short). -/
inductive TraversalOutcome where
  | completed (ms : List MetricSample)
  | fatal
  | blocked
deriving DecidableEq, Repr

def TraversalOutcome.isCompleted : TraversalOutcome → Bool
  | .completed _ => true
  | _ => false

def TraversalOutcome.isFatalOut : TraversalOutcome → Bool
  | .fatal => true
  | _ => false

def TraversalOutcome.isBlocked : TraversalOutcome → Bool
  | .blocked => true
  | _ => false

def TraversalOutcome.metrics : TraversalOutcome → List MetricSample
  | .completed ms => ms
  | _ => []

/-- The two structural gauges of a project, in source order (metrics.go
lines 107-123): subproject count then build-type count, both labeled by
the project id. The value is the declared `ChildProjects.Count`. -/
def structuralMetrics (id : String) (cnt bt : Nat) : List MetricSample :=
  [⟨"teamcity_projects", (cnt : Int), [id]⟩,
   ⟨"teamcity_project_build_types", (bt : Int), [id]⟩]

mutual

/-- `collectProjectMetrics` (metrics.go lines 98-149): fetch the project
(on a `GetByID` error return the error — the caller logs it), emit the two
structural gauges, collect the project's builds (an error return skips the
children; a `Fatal` kills the process), then launch one goroutine per
entry of `ChildProjects.Items` while sizing the `WaitGroup` from
`ChildProjects.Count`: the join completes exactly when the count matches
the number of children and every child's goroutine itself returned. -/
def collectProjectMetrics : ProjectTree → TraversalOutcome
  | .node id cnt bt fetchErr buildFetch children =>
    if fetchErr then .completed []
    else
      let own := structuralMetrics id cnt bt
      match collectProjectBuildMetrics id buildFetch with
      | .fatal _ => .fatal
      | .err bms _ => .completed (own ++ bms)
      | .ok bms =>
        let rs := collectChildren children
        if rs.any TraversalOutcome.isFatalOut then .fatal
        else if decide (cnt ≠ children.length) || rs.any TraversalOutcome.isBlocked then
          .blocked
        else .completed (own ++ bms ++ (rs.map TraversalOutcome.metrics).flatten)

def collectChildren : List ProjectTree → List TraversalOutcome
  | [] => []
  | t :: ts => collectProjectMetrics t :: collectChildren ts

end

mutual

/-- Every project in the tree declares a `ChildProjects.Count` equal to the
number of entries of `ChildProjects.Items`. -/
def allCounted : ProjectTree → Bool
  | .node _ cnt _ _ _ children => decide (cnt = children.length) && allCountedList children

def allCountedList : List ProjectTree → Bool
  | [] => true
  | t :: ts => allCounted t && allCountedList ts

end

mutual

/-- Every project lookup and build-list fetch in the tree succeeds without
error and without a fatal pagination condition. -/
def cleanFetch : ProjectTree → Bool
  | .node id _ _ fetchErr buildFetch children =>
    !fetchErr && (collectProjectBuildMetrics id buildFetch).isOk && cleanFetchList children

def cleanFetchList : List ProjectTree → Bool
  | [] => true
  | t :: ts => cleanFetch t && cleanFetchList ts

end

/-! ## The agent collector (agents.go) -/

/-- One agent object of the agents response (agents.go lines 15-22),
restricted to the requested fields; `build(id)` is the current build's id,
zero when the agent is idle (Go zero value). -/
structure RawAgent where
  id : Nat
  name : String
  authorized : Bool
  connected : Bool
  enabled : Bool
  currentBuildID : Nat
deriving DecidableEq, Repr

structure AgentsResponse where
  count : Nat
  nextHRef : String
  agents : List RawAgent
deriving DecidableEq, Repr

/-- The delivered HTTP response for the agents request. -/
structure AgentFetch where
  statusCode : Nat
  body : AgentsResponse
deriving DecidableEq, Repr

/-- Go `map[bool]int{true: 1, false: 0}` lookup (agents.go). -/
def boolGauge (b : Bool) : Int := if b then 1 else 0

/-- The four gauges emitted for one agent, in source order (agents.go
lines 126-160), labeled by decimal agent id and agent name. -/
def agentMetrics (a : RawAgent) : List MetricSample :=
  let labels := [toString a.id, a.name]
  [⟨"teamcity_agent_authorized", boolGauge a.authorized, labels⟩,
   ⟨"teamcity_agent_connected", boolGauge a.connected, labels⟩,
   ⟨"teamcity_agent_enabled", boolGauge a.enabled, labels⟩,
   ⟨"teamcity_agent_current_build_id", (a.currentBuildID : Int), labels⟩]

/-- How `TeamCityAgentCollector.Collect` ends. `nilDeref` is the run-time
panic of reading `response.StatusCode` from a nil response. `fatal`
carries the gauges emitted before `logrus.Fatal`. -/
inductive AgentOutcome where
  | ok (metrics : List MetricSample)
  | fatal (metrics : List MetricSample)
  | nilDeref
deriving DecidableEq, Repr

def AgentOutcome.emitted : AgentOutcome → List MetricSample
  | .ok ms => ms
  | .fatal ms => ms
  | .nilDeref => []

/-- `TeamCityAgentCollector.Collect` (agents.go lines 85-161). A transport
error from `client.Do` is only logged, and execution continues into
`response.StatusCode` on the nil response — a nil-pointer dereference.
Otherwise: 404 returns with nothing emitted; a non-empty `nextHref` is
fatal BEFORE the loop, so nothing is emitted; otherwise every agent's four
gauges are emitted. -/
def agentCollect (transport : Option AgentFetch) : AgentOutcome :=
  match transport with
  | none => .nilDeref
  | some response =>
    if response.statusCode = 404 then .ok []
    else if response.body.nextHRef ≠ "" then .fatal []
    else .ok (response.body.agents.flatMap agentMetrics)

/-! ## String plumbing lemmas -/

theorem data_mk (l : List Char) : (String.mk l).data = l := rfl

theorem data_append (s t : String) : (s ++ t).data = s.data ++ t.data := by
  cases s; cases t; rfl

theorem data_T : ("T" : String).data = ['T'] := rfl

/-! ## Round-trip lemmas for the temporal codec -/

theorem getnum2_append (fx : Bool) (n : Nat) (hn : n < 100) (r : List Char) :
    getnum2 fx ((pad2 n).data ++ r) = some (n, r) := by
  have h1 : n / 10 < 10 := by omega
  have h2 : n % 10 < 10 := by omega
  simp [pad2, getnum2, digitVal?_digitChar _ h1, digitVal?_digitChar _ h2]
  omega

theorem parse4_append (n : Nat) (hn : n ≤ 9999) (r : List Char) :
    parse4 ((pad4 n).data ++ r) = some (n, r) := by
  have h1 : n / 1000 < 10 := by omega
  have h2 : n / 100 % 10 < 10 := by omega
  have h3 : n / 10 % 10 < 10 := by omega
  have h4 : n % 10 < 10 := by omega
  simp [pad4, parse4, digitVal?_digitChar _ h1, digitVal?_digitChar _ h2,
    digitVal?_digitChar _ h3, digitVal?_digitChar _ h4]
  omega

theorem parseZone_append (off : Int) (h60 : off % 60 = 0) (hb : off.natAbs ≤ 86340)
    (r : List Char) : parseZone ((zoneStr off).data ++ r) = some (off, r) := by
  have hm : off.natAbs / 60 ≤ 1439 := by omega
  have h1 : off.natAbs / 60 / 60 / 10 < 10 := by omega
  have h2 : off.natAbs / 60 / 60 % 10 < 10 := by omega
  have h3 : off.natAbs / 60 % 60 / 10 < 10 := by omega
  have h4 : off.natAbs / 60 % 60 % 10 < 10 := by omega
  have hN : ((off.natAbs / 60 / 60 / 10 * 10 + off.natAbs / 60 / 60 % 10) * 60 +
      (off.natAbs / 60 % 60 / 10 * 10 + off.natAbs / 60 % 60 % 10)) * 60 = off.natAbs := by
    omega
  by_cases hoff : off ≤ -60
  · simp only [zoneStr, if_pos hoff, data_append, data_mk, pad2, List.cons_append,
      List.nil_append, parseZone, digitVal?_digitChar _ h1, digitVal?_digitChar _ h2,
      digitVal?_digitChar _ h3, digitVal?_digitChar _ h4, hN]
    rw [if_neg (by decide), if_pos trivial]
    have hoo : -(↑off.natAbs : Int) = off := by omega
    rw [hoo]
  · simp only [zoneStr, if_neg hoff, data_append, data_mk, pad2, List.cons_append,
      List.nil_append, parseZone, digitVal?_digitChar _ h1, digitVal?_digitChar _ h2,
      digitVal?_digitChar _ h3, digitVal?_digitChar _ h4, hN]
    rw [if_pos trivial]
    have hoo : (↑off.natAbs : Int) = off := by omega
    rw [hoo]

theorem tcFormat_data (d : DateTime) :
    (tcFormat d).data = (pad4 d.year).data ++ ((pad2 d.month).data ++ ((pad2 d.day).data ++
      ('T' :: ((pad2 d.hour).data ++ ((pad2 d.minute).data ++ ((pad2 d.second).data ++
      (zoneStr d.offset).data)))))) := by
  simp [tcFormat, data_append, data_T, List.append_assoc]

theorem daysIn_le (m y : Nat) : daysIn m y ≤ 31 := by
  unfold daysIn
  split_ifs <;> omega

theorem tcParseChars_build (y mo da ho mi se : Nat) (off : Int)
    (hy : y ≤ 9999) (hmo1 : 1 ≤ mo) (hmo2 : mo ≤ 12)
    (hda1 : 1 ≤ da) (hda2 : da ≤ daysIn mo y)
    (hho : ho ≤ 23) (hmi : mi ≤ 59) (hse : se ≤ 59)
    (h60 : off % 60 = 0) (hb : off.natAbs ≤ 86340) :
    tcParseChars ((pad4 y).data ++ ((pad2 mo).data ++ ((pad2 da).data ++
      ('T' :: ((pad2 ho).data ++ ((pad2 mi).data ++ ((pad2 se).data ++
      (zoneStr off).data))))))) = .ok ⟨y, mo, da, ho, mi, se, off⟩ := by
  have hh1 : ¬ 24 ≤ ho := by omega
  have hh2 : ¬ 60 ≤ mi := by omega
  have hh3 : ¬ 60 ≤ se := by omega
  have hh4 : ¬ (mo < 1 ∨ 12 < mo) := by omega
  have hh5 : ¬ (da < 1 ∨ daysIn mo y < da) := by omega
  have hda100 : da < 100 := by have := daysIn_le mo y; omega
  have hz : parseZone (zoneStr off).data = some (off, []) := by
    have h := parseZone_append off h60 hb []
    simpa using h
  simp only [tcParseChars, parse4_append y hy, getnum2_append true mo (by omega),
    getnum2_append true da hda100, getnum2_append false ho (by omega),
    getnum2_append true mi (by omega), getnum2_append true se (by omega),
    hz, hh1, hh2, hh3, hh4, hh5, if_false]

theorem mem_pad2_ne_quote (n : Nat) (c : Char) (hc : c ∈ (pad2 n).data) : c ≠ '"' := by
  simp [pad2] at hc
  rcases hc with h | h <;> (subst h; exact digitChar_ne_quote _)

theorem mem_pad4_ne_quote (n : Nat) (c : Char) (hc : c ∈ (pad4 n).data) : c ≠ '"' := by
  simp [pad4] at hc
  rcases hc with h | h | h | h <;> (subst h; exact digitChar_ne_quote _)

theorem mem_zoneStr_ne_quote (off : Int) (c : Char) (hc : c ∈ (zoneStr off).data) : c ≠ '"' := by
  unfold zoneStr at hc
  rw [data_append, data_append] at hc
  simp only [List.mem_append] at hc
  rcases hc with (h | h) | h
  · split at h <;> simp_all
  · exact mem_pad2_ne_quote _ _ h
  · exact mem_pad2_ne_quote _ _ h

theorem tcFormat_no_quote (d : DateTime) : ∀ c ∈ (tcFormat d).data, c ≠ '"' := by
  intro c hc
  rw [tcFormat_data] at hc
  simp only [List.mem_append, List.mem_cons] at hc
  rcases hc with h | h | h | h | h | h | h | h
  · exact mem_pad4_ne_quote _ _ h
  · exact mem_pad2_ne_quote _ _ h
  · exact mem_pad2_ne_quote _ _ h
  · subst h; decide
  · exact mem_pad2_ne_quote _ _ h
  · exact mem_pad2_ne_quote _ _ h
  · exact mem_pad2_ne_quote _ _ h
  · exact mem_zoneStr_ne_quote _ _ h

theorem trimQuotes_of_no_quote (s : String) (h : ∀ c ∈ s.data, c ≠ '"') : trimQuotes s = s := by
  have key : ∀ l : List Char, (∀ c ∈ l, c ≠ '"') → l.dropWhile (· = '"') = l := by
    intro l hl
    cases l with
    | nil => rfl
    | cons a t =>
      have ha : ¬ (a = '"') := hl a (by simp)
      simp [List.dropWhile_cons, ha]
  have h2 := key s.data h
  have h3 : ∀ c ∈ s.data.reverse, c ≠ '"' := fun c hc => h c (List.mem_reverse.mp hc)
  unfold trimQuotes
  rw [h2, key _ h3, List.reverse_reverse]

/-! ## Claim theorems -/

/-- C3: for every input string `s`, `ParseBuildState` returns ordinal 1 on
"queued", 2 on "finished", 3 on "running", 4 on "deleted", and 0 (Unknown)
on every other string including the empty string; being a total function
it never fails. -/
theorem c3_parseBuildState_total :
    (ParseBuildState "queued").ordinal = 1 ∧ (ParseBuildState "finished").ordinal = 2 ∧
    (ParseBuildState "running").ordinal = 3 ∧ (ParseBuildState "deleted").ordinal = 4 ∧
    (ParseBuildState "").ordinal = 0 ∧
    ∀ s : String, s ∉ (["queued", "finished", "running", "deleted"] : List String) →
      (ParseBuildState s).ordinal = 0 := by
  refine ⟨by decide, by decide, by decide, by decide, by decide, ?_⟩
  intro s hs
  simp only [List.mem_cons, List.not_mem_nil, or_false, not_or] at hs
  obtain ⟨h1, h2, h3, h4⟩ := hs
  simp [ParseBuildState, h1, h2, h3, h4, BuildState.ordinal]

theorem c3_witness :
    ("other" : String) ∉ (["queued", "finished", "running", "deleted"] : List String) ∧
    (ParseBuildState "other").ordinal = 0 :=
  ⟨by decide, c3_parseBuildState_total.2.2.2.2.2 "other" (by decide)⟩

/-- C4: for every input string `s`, `ParseBuildStatus` returns 1 on
"SUCCESS", 2 on "FAILURE", and 0 (Unknown) on every other string; being a
total function it never fails. -/
theorem c4_parseBuildStatus_total :
    (ParseBuildStatus "SUCCESS").ordinal = 1 ∧ (ParseBuildStatus "FAILURE").ordinal = 2 ∧
    (ParseBuildStatus "").ordinal = 0 ∧
    ∀ s : String, s ∉ (["SUCCESS", "FAILURE"] : List String) →
      (ParseBuildStatus s).ordinal = 0 := by
  refine ⟨by decide, by decide, by decide, ?_⟩
  intro s hs
  simp only [List.mem_cons, List.not_mem_nil, or_false, not_or] at hs
  obtain ⟨h1, h2⟩ := hs
  simp [ParseBuildStatus, h1, h2, BuildStatus.ordinal]

theorem c4_witness :
    ("success" : String) ∉ (["SUCCESS", "FAILURE"] : List String) ∧
    (ParseBuildStatus "success").ordinal = 0 :=
  ⟨by decide, c4_parseBuildStatus_total.2.2.2 "success" (by decide)⟩

/-- C5: for every instant representable in the upstream layout at
whole-second precision (valid calendar fields, four-digit year,
whole-minute offset), formatting it in layout `20060102T150405-0700` and
decoding the result with `TeamCityTime.UnmarshalJSON` yields the same
instant back — indeed the same calendar fields and offset — with no
error. -/
theorem c5_timestamp_round_trip (d : DateTime) (h : d.valid = true) :
    TeamCityTime.UnmarshalJSON (tcFormat d) = .ok d := by
  simp only [DateTime.valid, Bool.and_eq_true, decide_eq_true_eq] at h
  obtain ⟨⟨⟨⟨⟨⟨⟨⟨⟨hy, hmo1⟩, hmo2⟩, hda1⟩, hda2⟩, hho⟩, hmi⟩, hse⟩, h60⟩, hb⟩ := h
  unfold TeamCityTime.UnmarshalJSON tcParse
  rw [trimQuotes_of_no_quote _ (tcFormat_no_quote d), tcFormat_data]
  exact tcParseChars_build d.year d.month d.day d.hour d.minute d.second d.offset
    hy hmo1 hmo2 hda1 hda2 hho hmi hse h60 hb

theorem c5_witness :
    DateTime.valid ⟨2024, 1, 15, 10, 30, 45, -10800⟩ = true ∧
    TeamCityTime.UnmarshalJSON (tcFormat ⟨2024, 1, 15, 10, 30, 45, -10800⟩) =
      .ok ⟨2024, 1, 15, 10, 30, 45, -10800⟩ :=
  ⟨by decide, c5_timestamp_round_trip ⟨2024, 1, 15, 10, 30, 45, -10800⟩ (by decide)⟩

/-- C7 counterexample: the claim "the registered collector's Describe
operation sends every metric descriptor of its static descriptor set to
the provided descriptor channel" is false — `TeamCityCollector.Describe`
(metrics.go line 88) has an empty body, so in particular the
`teamcity_projects` descriptor is never sent. -/
theorem c7_counterexample :
    ¬ ∀ d ∈ teamCityCollectorDescriptors, d ∈ teamCityCollectorDescribe := by
  decide

/-- C7 amended: the registered collector's Describe operation is a no-op:
although its static descriptor set holds six descriptors, Describe sends
none of them to the descriptor channel. -/
theorem c7_amended_describe_noop :
    teamCityCollectorDescribe = ([] : List String) ∧
    teamCityCollectorDescriptors.length = 6 ∧
    ∀ d ∈ teamCityCollectorDescriptors, d ∉ teamCityCollectorDescribe := by
  decide

theorem c7_witness :
    ("teamcity_projects" : String) ∈ teamCityCollectorDescriptors ∧
    ("teamcity_projects" : String) ∉ teamCityCollectorDescribe :=
  ⟨by decide, c7_amended_describe_noop.2.2 "teamcity_projects" (by decide)⟩

/-- C9: in `TeamCityAgentCollector.Collect` (agents.go lines 95-110) the
dereference of the response is safe exactly when the transport call
delivered a response: on a transport failure the error is only logged and
execution continues into `response.StatusCode` on the nil response,
a nil-pointer dereference. -/
theorem c9_nil_deref :
    agentCollect none = .nilDeref ∧
    ∀ r : AgentFetch, agentCollect (some r) ≠ .nilDeref := by
  refine ⟨rfl, ?_⟩
  intro r
  simp only [agentCollect]
  split_ifs <;> simp

/-! ## Helper lemmas about the build decode and the tree traversal -/

theorem decodeBuilds_err (l : List RawBuild)
    (h : ∃ rb ∈ l, ∃ e, decodeBuild rb = .error e) :
    ∃ e, decodeBuilds l = .error e := by
  induction l with
  | nil => simp at h
  | cons rb rest ih =>
    rcases h with ⟨b, hb, e, he⟩
    rcases List.mem_cons.mp hb with rfl | hmem
    · exact ⟨e, by simp [decodeBuilds, he]⟩
    · cases hdb : decodeBuild rb with
      | error e2 => exact ⟨e2, by simp [decodeBuilds, hdb]⟩
      | ok b2 =>
        obtain ⟨e3, he3⟩ := ih ⟨b, hmem, e, he⟩
        exact ⟨e3, by simp [decodeBuilds, hdb, he3]⟩

theorem collectChildren_eq_map (ts : List ProjectTree) :
    collectChildren ts = ts.map collectProjectMetrics := by
  induction ts with
  | nil => rfl
  | cons t ts ih => simp [collectChildren, ih]

theorem cleanFetchList_iff (ts : List ProjectTree) :
    cleanFetchList ts = true ↔ ∀ c ∈ ts, cleanFetch c = true := by
  induction ts with
  | nil => simp [cleanFetchList]
  | cons t ts ih => simp [cleanFetchList, ih]

theorem allCountedList_iff (ts : List ProjectTree) :
    allCountedList ts = true ↔ ∀ c ∈ ts, allCounted c = true := by
  induction ts with
  | nil => simp [allCountedList]
  | cons t ts ih => simp [allCountedList, ih]

theorem any_not_allCounted (ts : List ProjectTree) :
    (ts.any fun c => !(allCounted c)) = !(allCountedList ts) := by
  induction ts with
  | nil => simp [allCountedList]
  | cons t ts ih =>
    simp only [List.any_cons, allCountedList, ih]
    cases allCounted t <;> simp

theorem any_congr_mem (l : List ProjectTree) (p q : ProjectTree → Bool)
    (h : ∀ c ∈ l, p c = q c) : l.any p = l.any q := by
  induction l with
  | nil => rfl
  | cons t ts ih =>
    simp only [List.any_cons, h t (by simp), ih fun c hc => h c (by simp [hc])]

theorem any_map_outcome (l : List ProjectTree) (p : TraversalOutcome → Bool) :
    (l.map collectProjectMetrics).any p = l.any fun c => p (collectProjectMetrics c) := by
  induction l with
  | nil => rfl
  | cons t ts ih => simp [ih]

/-- Structural induction over the project tree with a membership-based
induction hypothesis for the child list. -/
theorem ProjectTree.recMem (P : ProjectTree → Prop)
    (h : ∀ id cnt bt fe bf children, (∀ c ∈ children, P c) →
      P (.node id cnt bt fe bf children)) :
    ∀ t, P t
  | .node id cnt bt fe bf children =>
    h id cnt bt fe bf children (fun c _ => ProjectTree.recMem P h c)
termination_by t => sizeOf t
decreasing_by
  rename_i hc
  have := List.sizeOf_lt_of_mem hc
  simp only [ProjectTree.node.sizeOf_spec]
  omega

/-- Under clean fetches, a traversal never hits the fatal path, and it
completes exactly when every visited project's declared child count
matches its child list. -/
theorem clean_traversal_spec (t : ProjectTree) :
    cleanFetch t = true →
      (collectProjectMetrics t).isFatalOut = false ∧
      (collectProjectMetrics t).isCompleted = allCounted t := by
  induction t using ProjectTree.recMem with
  | _ id cnt bt fe bf children ih =>
    intro hclean
    simp only [cleanFetch, Bool.and_eq_true, Bool.not_eq_eq_eq_not, Bool.not_true] at hclean
    obtain ⟨⟨hfe, hok⟩, hlist⟩ := hclean
    subst hfe
    have hchildren := (cleanFetchList_iff children).mp hlist
    cases hbf : collectProjectBuildMetrics id bf with
    | err ms e => rw [hbf] at hok; simp [CollectOutcome.isOk] at hok
    | fatal ms => rw [hbf] at hok; simp [CollectOutcome.isOk] at hok
    | ok bms =>
      have hfat : ((collectChildren children).any TraversalOutcome.isFatalOut) = false := by
        rw [collectChildren_eq_map, any_map_outcome]
        simp only [List.any_eq_false]
        intro c hc
        simp [((ih c hc) (hchildren c hc)).1]
      have hblk : ((collectChildren children).any TraversalOutcome.isBlocked) =
          !(allCountedList children) := by
        rw [collectChildren_eq_map, any_map_outcome]
        have hpt : ∀ c ∈ children,
            (collectProjectMetrics c).isBlocked = !(allCounted c) := by
          intro c hc
          obtain ⟨h1, h2⟩ := (ih c hc) (hchildren c hc)
          cases hoc : collectProjectMetrics c <;>
            simp_all [TraversalOutcome.isCompleted, TraversalOutcome.isFatalOut,
              TraversalOutcome.isBlocked]
        rw [any_congr_mem children _ _ hpt, any_not_allCounted children]
      constructor
      · simp only [collectProjectMetrics, if_false, Bool.false_eq_true, hbf, hfat,
          Bool.false_eq_true]
        split_ifs <;> simp [TraversalOutcome.isFatalOut]
      · simp only [collectProjectMetrics, if_false, Bool.false_eq_true, hbf, hfat, hblk]
        simp only [allCounted]
        by_cases hcnt : cnt = children.length <;>
          cases hall : allCountedList children <;>
          simp [hcnt, TraversalOutcome.isCompleted, TraversalOutcome.isBlocked, hall]

/-! ## Concrete sample inputs -/

/-- A build-list page whose first build is well-formed and whose second
build carries a malformed `startDate`. -/
def badTimestampPage : RawBuildResponse :=
  ⟨2, "",
   [⟨11, "bt1", "SUCCESS", "finished", some "20240115T103045+0300",
      some "20240115T113045+0300"⟩,
    ⟨12, "bt1", "FAILURE", "finished", some "garbage", some "20240115T123045+0300"⟩]⟩

/-- A one-build page whose `nextHref` is non-empty. -/
def pageWithNext : RawBuildResponse :=
  ⟨1, "/next", [⟨7, "bt", "SUCCESS", "running", none, none⟩]⟩

/-- `pageWithNext` after decoding (absent timestamps are the zero time). -/
def pageWithNextDecoded : BuildResponse :=
  ⟨1, "/next", [⟨7, "bt", "SUCCESS", "running", zeroTime, zeroTime⟩]⟩

/-- An HTTP 404 build-list response. -/
def notFoundFetch : FetchResult := ⟨404, ⟨0, "", []⟩⟩

/-- An empty, well-formed 200 build-list response. -/
def okFetch : Except String FetchResult := .ok ⟨200, ⟨0, "", []⟩⟩

/-- A two-node project tree with accurate child counts and clean fetches. -/
def wTree : ProjectTree :=
  .node "root" 1 2 false okFetch [.node "child" 0 0 false okFetch []]

/-- An agents response with one agent and a non-empty `nextHref`. -/
def agentsWithNext : AgentFetch := ⟨200, ⟨1, "/next", [⟨5, "agentA", true, false, true, 0⟩]⟩⟩

/-! ## Remaining claim theorems -/

/-- C1 counterexample: on a page where the second build's `startDate` is
malformed, `collectProjectBuildMetrics` returns the decode error having
emitted no gauges at all — the well-formed sibling build's gauges are not
emitted and the malformed build's other fields never produce samples,
refuting the claim at this input. -/
theorem c1_counterexample :
    collectProjectBuildMetrics "P" (.ok ⟨200, badTimestampPage⟩) =
      .err [] "cannot parse year" ∧
    (collectProjectBuildMetrics "P" (.ok ⟨200, badTimestampPage⟩)).emitted = [] := by
  decide

/-- C1 amended: a malformed `startDate` or `finishDate` anywhere in the
page makes the whole `json.Unmarshal` fail, so `collectProjectBuildMetrics`
propagates the decode error having emitted zero build gauges (the failure
degrades the entire page, not the single field), and the enclosing
`collectProjectMetrics` returns that error after its two structural gauges
without descending into the children; the scrape itself is not aborted
because every caller merely logs the returned error. -/
theorem c1_amended_decode_aborts (id : String) (sc : Nat) (raw : RawBuildResponse)
    (hsc : sc ≠ 404)
    (hbad : ∃ rb ∈ raw.builds, ∃ e, decodeBuild rb = .error e) :
    ∃ e, collectProjectBuildMetrics id (.ok ⟨sc, raw⟩) = .err [] e ∧
      ∀ cnt bt children,
        collectProjectMetrics (.node id cnt bt false (.ok ⟨sc, raw⟩) children) =
          .completed (structuralMetrics id cnt bt) := by
  obtain ⟨e, he⟩ := decodeBuilds_err _ hbad
  refine ⟨e, ?_, ?_⟩
  · simp [collectProjectBuildMetrics, hsc, unmarshalBuildResponse, he]
  · intro cnt bt children
    simp [collectProjectMetrics, collectProjectBuildMetrics, hsc,
      unmarshalBuildResponse, he, structuralMetrics]

theorem c1_witness :
    ((200 : Nat) ≠ 404 ∧
      ∃ rb ∈ badTimestampPage.builds, ∃ e, decodeBuild rb = .error e) ∧
    ∃ e, collectProjectBuildMetrics "P" (.ok ⟨200, badTimestampPage⟩) = .err [] e ∧
      ∀ cnt bt children,
        collectProjectMetrics (.node "P" cnt bt false (.ok ⟨200, badTimestampPage⟩) children) =
          .completed (structuralMetrics "P" cnt bt) :=
  ⟨⟨by decide,
    ⟨⟨12, "bt1", "FAILURE", "finished", some "garbage", some "20240115T123045+0300"⟩,
      by decide, "cannot parse year", by decide⟩⟩,
   c1_amended_decode_aborts "P" 200 badTimestampPage (by decide)
     ⟨⟨12, "bt1", "FAILURE", "finished", some "garbage", some "20240115T123045+0300"⟩,
       by decide, "cannot parse year", by decide⟩⟩

/-- C2: fail-dirty ordering — for every delivered build-list response that
is not a 404, decodes, and has a non-empty `nextHref`,
`collectProjectBuildMetrics` reaches the fatal pagination check only after
emitting all four gauges (start time, finish time, status, state, in that
order) for every build of the fetched page, in page order. -/
theorem c2_fail_dirty (id : String) (r : FetchResult) (bres : BuildResponse)
    (hsc : r.statusCode ≠ 404)
    (hun : unmarshalBuildResponse r.body = .ok bres)
    (hnext : bres.nextHRef ≠ "") :
    collectProjectBuildMetrics id (.ok r) = .fatal (bres.builds.flatMap (buildMetrics id)) ∧
    ∀ b ∈ bres.builds, buildMetrics id b =
      [⟨"teamcity_build_start_time", b.startDate.toUnix, [id, b.buildTypeID, toString b.id]⟩,
       ⟨"teamcity_build_finish_time", b.finishDate.toUnix, [id, b.buildTypeID, toString b.id]⟩,
       ⟨"teamcity_build_status", ((ParseBuildStatus b.status).ordinal : Int),
         [id, b.buildTypeID, toString b.id]⟩,
       ⟨"teamcity_build_state", ((ParseBuildState b.state).ordinal : Int),
         [id, b.buildTypeID, toString b.id]⟩] := by
  constructor
  · simp [collectProjectBuildMetrics, hsc, hun, hnext]
  · intro b _
    rfl

theorem c2_witness :
    ((⟨200, pageWithNext⟩ : FetchResult).statusCode ≠ 404 ∧
      unmarshalBuildResponse (⟨200, pageWithNext⟩ : FetchResult).body = .ok pageWithNextDecoded ∧
      pageWithNextDecoded.nextHRef ≠ "") ∧
    collectProjectBuildMetrics "P" (.ok ⟨200, pageWithNext⟩) =
      .fatal (pageWithNextDecoded.builds.flatMap (buildMetrics "P")) :=
  ⟨⟨by decide, by decide, by decide⟩,
   (c2_fail_dirty "P" ⟨200, pageWithNext⟩ pageWithNextDecoded
      (by decide) (by decide) (by decide)).1⟩

/-- C6: an HTTP 404 build-list response yields zero build gauges and a nil
error for that project, and the traversal of the project's children (and
hence of sibling subtrees) proceeds unaffected: when the declared child
count matches and every child completes, the project completes with its
structural gauges followed by its children's metrics. -/
theorem c6_notFound_empty_ok (id : String) (r : FetchResult) (h404 : r.statusCode = 404) :
    collectProjectBuildMetrics id (.ok r) = .ok [] ∧
    ∀ cnt bt children, cnt = children.length →
      (∀ c ∈ children, (collectProjectMetrics c).isCompleted = true) →
      collectProjectMetrics (.node id cnt bt false (.ok r) children) =
        .completed (structuralMetrics id cnt bt ++
          ((collectChildren children).map TraversalOutcome.metrics).flatten) := by
  have h1 : collectProjectBuildMetrics id (.ok r) = .ok [] := by
    simp [collectProjectBuildMetrics, h404]
  refine ⟨h1, ?_⟩
  intro cnt bt children hcnt hcomp
  have hfat : (collectChildren children).any TraversalOutcome.isFatalOut = false := by
    rw [collectChildren_eq_map, any_map_outcome]
    simp only [List.any_eq_false]
    intro c hc
    have := hcomp c hc
    cases hoc : collectProjectMetrics c <;>
      simp_all [TraversalOutcome.isCompleted, TraversalOutcome.isFatalOut]
  have hblk : (collectChildren children).any TraversalOutcome.isBlocked = false := by
    rw [collectChildren_eq_map, any_map_outcome]
    simp only [List.any_eq_false]
    intro c hc
    have := hcomp c hc
    cases hoc : collectProjectMetrics c <;>
      simp_all [TraversalOutcome.isCompleted, TraversalOutcome.isBlocked]
  simp [collectProjectMetrics, h1, hfat, hblk, hcnt]

theorem c6_witness :
    notFoundFetch.statusCode = 404 ∧
    collectProjectBuildMetrics "P" (.ok notFoundFetch) = .ok [] :=
  ⟨by decide, (c6_notFound_empty_ok "P" notFoundFetch (by decide)).1⟩

/-- C8: `collectProjectMetrics` sizes each join barrier from
`ChildProjects.Count` while launching one task per `ChildProjects.Items`
entry, so with clean fetches the traversal returns (instead of
deadlocking on `wg.Wait` or panicking in `wg.Done`) exactly when every
visited project's declared count equals the number of its child entries;
under that precondition the recursion over the finite acyclic tree
terminates (the traversal function is total by structural recursion). -/
theorem c8_join_barrier (t : ProjectTree) (hclean : cleanFetch t = true) :
    (collectProjectMetrics t).isCompleted = true ↔ allCounted t = true := by
  rw [(clean_traversal_spec t hclean).2]

theorem c8_witness :
    cleanFetch wTree = true ∧
    ((collectProjectMetrics wTree).isCompleted = true ↔ allCounted wTree = true) :=
  ⟨by decide, c8_join_barrier wTree (by decide)⟩

/-- C10: the agent collector checks `nextHref` before emitting any sample:
for every delivered agents response that is not a 404 and has a non-empty
`nextHref`, the fatal condition fires with zero agent gauges emitted
(fail-clean) — the opposite emission-versus-check order from the build
collector, which on the analogous build page emits the page's gauges
before its fatal check. -/
theorem c10_fail_clean (r : AgentFetch) (hsc : r.statusCode ≠ 404)
    (hnext : r.body.nextHRef ≠ "") :
    agentCollect (some r) = .fatal [] ∧
    (agentCollect (some r)).emitted = [] ∧
    (collectProjectBuildMetrics "P" (.ok ⟨200, pageWithNext⟩)).emitted ≠ [] := by
  refine ⟨?_, ?_, by decide⟩ <;> simp [agentCollect, hsc, hnext, AgentOutcome.emitted]

theorem c10_witness :
    (agentsWithNext.statusCode ≠ 404 ∧ agentsWithNext.body.nextHRef ≠ "") ∧
    agentCollect (some agentsWithNext) = .fatal [] :=
  ⟨⟨by decide, by decide⟩, (c10_fail_clean agentsWithNext (by decide) (by decide)).1⟩

end TCX
